import Mathlib

/-
Verification of the bookocr page pipeline: a shallow embedding of
src/gemini_client.py (response parsing), src/context_manager.py,
src/markdown_stitcher.py and src/book_processor.py (orchestration loop,
cache), together with theorems settling the specification claims.

Python strings are modelled as Lean `String` (lists of characters);
Python `re.sub` calls in the stitcher are embedded as explicit
left-to-right scanners with the exact leftmost / greedy semantics of the
patterns used by the source.  Fuel arguments equal to `length + 1` make
the scanners structurally recursive; each scanner step consumes at least
one character, so the fuel never runs out on the wrapped inputs.
-/

namespace BookOCR

/-! ## Python string primitives -/

/-- Characters treated as whitespace by Python `str.strip` / `str.split` /
regex `\s` (ASCII range, which covers every input in this development). -/
def isPyWs (c : Char) : Bool :=
  c == ' ' || c == '\t' || c == '\n' || c == '\r' || c == '\x0b' || c == '\x0c'

/-- Python `str.strip()` on a character list. -/
def stripList (l : List Char) : List Char :=
  ((l.dropWhile isPyWs).reverse.dropWhile isPyWs).reverse

/-- Python `s.strip()`. -/
def pyStrip (s : String) : String := ⟨stripList s.data⟩

/-- Search for `needle` in a suffix of the haystack, returning the absolute
index of the first occurrence (the running index starts at `i`). -/
def findFromAux (needle : List Char) : List Char → Nat → Option Nat
  | [], i => if needle.isEmpty then some i else Option.none
  | c :: rest, i =>
    if needle.isPrefixOf (c :: rest) then some i else findFromAux needle rest (i + 1)

/-- Python `s.find(sub, start)` restricted to the found case: `some i` is the
least index `i ≥ start` at which `sub` occurs, `none` when Python returns -1. -/
def pyFindFrom (s sub : String) (start : Nat) : Option Nat :=
  findFromAux sub.data (s.data.drop start) start

/-- Python `sub in s`. -/
def pyContains (s sub : String) : Bool := (pyFindFrom s sub 0).isSome

/-- Python `s[a:b]` for `0 ≤ a, b`. -/
def pySlice (s : String) (a b : Nat) : String := ⟨(s.data.take b).drop a⟩

/-- Python `s.replace(needle, repl)` (left-to-right, non-overlapping),
with fuel; the wrapper supplies `length + 1` fuel which always suffices
because every step consumes at least one character. -/
def replaceListF (needle repl : List Char) : Nat → List Char → List Char
  | 0, l => l
  | _ + 1, [] => []
  | fuel + 1, c :: rest =>
    if needle ≠ [] ∧ needle.isPrefixOf (c :: rest) then
      repl ++ replaceListF needle repl fuel ((c :: rest).drop needle.length)
    else
      c :: replaceListF needle repl fuel rest

/-- Python `s.replace(needle, repl)`. -/
def pyReplace (s needle repl : String) : String :=
  ⟨replaceListF needle.data repl.data (s.data.length + 1) s.data⟩

/-- Python `s.count(sub)` (non-overlapping occurrences), with fuel. -/
def countSubF (needle : List Char) : Nat → List Char → Nat
  | 0, _ => 0
  | _ + 1, [] => 0
  | fuel + 1, c :: rest =>
    if needle ≠ [] ∧ needle.isPrefixOf (c :: rest) then
      1 + countSubF needle fuel ((c :: rest).drop needle.length)
    else
      countSubF needle fuel rest

/-- Python `s.count(sub)` for non-empty `sub`. -/
def countSub (s sub : String) : Nat := countSubF sub.data (s.data.length + 1) s.data

/-- Helper for Python `s.split(sep)` with a one-character separator: `cur`
holds the (reversed) current piece. -/
def splitChAux (sep : Char) (cur : List Char) : List Char → List (List Char)
  | [] => [cur.reverse]
  | c :: rest =>
    if c = sep then cur.reverse :: splitChAux sep [] rest
    else splitChAux sep (c :: cur) rest

/-- Python `s.split('\n')`: always returns at least one piece. -/
def splitNL (s : String) : List String := (splitChAux '\n' [] s.data).map (fun l => ⟨l⟩)

/-- Python `sep.join(pieces)`. -/
def joinWith (sep : String) : List String → String
  | [] => ""
  | [a] => a
  | a :: b :: rest => a ++ sep ++ joinWith sep (b :: rest)

/-- Helper for Python `s.split()` (whitespace split, empty pieces dropped). -/
def splitWsAux (cur : List Char) : List Char → List (List Char)
  | [] => if cur = [] then [] else [cur.reverse]
  | c :: rest =>
    if isPyWs c then
      if cur = [] then splitWsAux [] rest else cur.reverse :: splitWsAux [] rest
    else
      splitWsAux (c :: cur) rest

/-- Python `s.split()`. -/
def splitWs (s : String) : List String := (splitWsAux [] s.data).map (fun l => ⟨l⟩)

/-- Python `s[-1]` for a non-empty string (defaulting to a space, a case the
callers rule out just as the source does). -/
def lastCharD (s : String) : Char := s.data.getLast?.getD ' '

/-! ## Data model: PageResult (gemini_client / cache entries) -/

/-- The per-page extraction record built by `GeminiClient._parse_response`
and stored verbatim in the cache: the keys `markdown`, `ends_incomplete`
and `incomplete_text` of the Python result dict. -/
structure PageResult where
  markdown : String
  ends_incomplete : Bool
  incomplete_text : Option String
deriving DecidableEq

/-! ## GeminiClient._parse_response (src/gemini_client.py lines 105-139) -/

/-- The fenced-markdown opener searched for by `_parse_response`. -/
def fenceTok : String := "```markdown"

/-- The closing fence. -/
def closeTok : String := "```"

/-- The end-of-page sentinel literal. -/
def eolTok : String := "\x7bEOL\x7d"

/-- The incomplete-fragment marker opener. -/
def incTok : String := "\x7bINCOMPLETE:"

/-- Index just past the first `incTok` occurrence, as computed on line 131
of src/gemini_client.py (`find` + `len`). -/
def incStart (t : String) : Nat := (pyFindFrom t incTok 0).getD 0 + incTok.length

/-- Text between the `incTok` opener and the next closing brace, trimmed
(lines 131-134 of src/gemini_client.py); `none` when no closing brace
follows, in which case the source leaves `incomplete_text` as `None`. -/
def incBody (t : String) : Option String :=
  match pyFindFrom t ("\x7d") (incStart t) with
  | some e => some (pyStrip (pySlice t (incStart t) e))
  | Option.none => Option.none

/-- `GeminiClient._parse_response`, translated line by line from
src/gemini_client.py lines 105-139. -/
def parseResponse (t : String) : PageResult :=
  let md0 : String :=
    if pyContains t fenceTok then
      let a := (pyFindFrom t fenceTok 0).getD 0 + fenceTok.length
      match pyFindFrom t closeTok a with
      | some e => pyStrip (pySlice t a e)
      | Option.none => ""
    else
      pyStrip t
  let ends : Bool := pyContains t eolTok
  let inc : Option String :=
    if ends && pyContains t incTok then incBody t else Option.none
  { markdown := pyStrip (pyReplace md0 eolTok ("")),
    ends_incomplete := ends,
    incomplete_text := inc }

/-! ## ContextManager.detect_incomplete_text (src/context_manager.py 81-120) -/

/-- Trailing punctuation set of line 105 of src/context_manager.py. -/
def endPunct : String := ".!?,;:)\"\x27"

/-- `ContextManager.detect_incomplete_text`, translated from
src/context_manager.py lines 81-120. -/
def detectIncompleteText (markdown : String) : Bool × Option String :=
  if markdown = "" then (false, Option.none)
  else
    match (splitNL (pyStrip markdown)).getLast? with
    | Option.none => (false, Option.none)
    | some ll =>
      let lastLine := pyStrip ll
      if lastLine = "" then (false, Option.none)
      else if endPunct.data.contains (lastCharD lastLine) then (false, Option.none)
      else
        match (splitWs lastLine).getLast? with
        | Option.none => (false, Option.none)
        | some w =>
          if w.length < 15 ∧ (lastCharD w).isAlpha ∧ w.data.contains '-' then
            (true, some w)
          else
            (false, Option.none)

/-! ## MarkdownStitcher (src/markdown_stitcher.py) -/

/-- Scanner for `re.sub(r'\n{k,}', repl, s)` with `repl` a run of newlines:
`pending` counts the newline run read so far; a run of length at least
`minRun` is replaced by `repl`, shorter runs are kept.  This matches the
greedy leftmost semantics of the patterns `\n{3,}` and `\n{4,}`. -/
def flushNL (minRun : Nat) (repl : List Char) (pending : Nat) : List Char :=
  if minRun ≤ pending then repl else List.replicate pending '\n'

/-- See `flushNL`; structural scanner over the character list. -/
def collapseNLAux (minRun : Nat) (repl : List Char) : Nat → List Char → List Char
  | pending, [] => flushNL minRun repl pending
  | pending, c :: rest =>
    if c = '\n' then collapseNLAux minRun repl (pending + 1) rest
    else flushNL minRun repl pending ++ (c :: collapseNLAux minRun repl 0 rest)

/-- `MarkdownStitcher._clean_page_content`: collapse runs of 3+ newlines to
exactly two, then strip (lines 77-85 of src/markdown_stitcher.py). -/
def cleanPageContent (s : String) : String :=
  pyStrip ⟨collapseNLAux 3 ['\n', '\n'] 0 s.data⟩

/-- `MarkdownStitcher._is_header`: `re.match(r'^#{1,6}\s+', line)`.  The
maximal hash prefix must have length 1..6 and be followed by a whitespace
character (with 7+ hashes the greedy `#{1,6}` can never be followed by
`\s`, matching the regex backtracking behavior). -/
def isHeaderLine (s : String) : Bool :=
  let hs := s.data.takeWhile (fun c => c == '#')
  if 1 ≤ hs.length ∧ hs.length ≤ 6 then
    match s.data.drop hs.length with
    | w :: _ => isPyWs w
    | [] => false
  else
    false

/-- Markdown symbols removed for comparison by `_similar_text`
(`re.sub(r'[#*_\[\]]', '', text)`). -/
def isMdSym (c : Char) : Bool :=
  c == '#' || c == '*' || c == '_' || c == '[' || c == ']'

/-- The cleaned, lower-cased form used by `_similar_text`. -/
def cleanForCompare (s : String) : String :=
  ⟨(s.data.filter (fun c => !isMdSym c)).map Char.toLower⟩

/-- Position-wise matching character count over the zipped pair
(`sum(1 for a, b in zip(clean1, clean2) if a == b)`). -/
def countCommon : List Char → List Char → Nat
  | a :: as, b :: bs => (if a == b then 1 else 0) + countCommon as bs
  | _, _ => 0

/-- `MarkdownStitcher._similar_text` (lines 127-151).  Python
`max(clean1, clean2, key=len)` returns the first argument when lengths tie,
so `longer`/`shorter` both default to `clean1` on ties.  The float test
`common / max(len1, len2) >= 0.8` is modelled by the exact rational
comparison `5 * common ≥ 4 * max len1 len2`, which agrees with the float
computation on all realistic (small) lengths. -/
def similarText (t1 t2 : String) : Bool :=
  let c1 := cleanForCompare t1
  let c2 := cleanForCompare t2
  if c1 = "" ∨ c2 = "" then false
  else
    let longer := if c2.length > c1.length then c2 else c1
    let shorter := if c2.length < c1.length then c2 else c1
    if pyContains longer shorter then true
    else decide (5 * countCommon c1.data c2.data ≥ 4 * max c1.length c2.length)

/-- First line of a page's content, stripped: `current_lines[0].strip()`
over `content.split('\n')`. -/
def firstLineOf (s : String) : String := pyStrip ((splitNL s).headD (""))

/-- Last line of the stripped content: `content.strip().split('\n')[-1]`
(the loop in `stitch_all`, lines 65-66 of src/markdown_stitcher.py). -/
def lastLineOf (s : String) : String := ((splitNL (pyStrip s)).getLast?).getD ("")

/-- `MarkdownStitcher._handle_page_transition` (lines 87-121): drop the
current page's first line when both boundary lines are headers and similar. -/
def handlePageTransition (prevLast cur : String) : String :=
  if prevLast = "" ∨ cur = "" then cur
  else
    let curLines := splitNL cur
    let first := firstLineOf cur
    let prevC := pyStrip prevLast
    if isHeaderLine prevC && isHeaderLine first && similarText prevC first then
      joinWith ("\n") curLines.tail
    else
      cur

/-- Stable insertion used to model Python's stable `list.sort(key=...)`:
the new element is placed after all existing elements with a key `≤` its
own, so elements inserted later stay behind equal keys. -/
def insertPage (x : Nat × String) : List (Nat × String) → List (Nat × String)
  | [] => [x]
  | y :: ys => if y.1 ≤ x.1 then y :: insertPage x ys else x :: y :: ys

/-- `self.pages.sort(key=lambda x: x['number'])` (stable). -/
def sortPages (l : List (Nat × String)) : List (Nat × String) :=
  l.foldl (fun acc x => insertPage x acc) []

/-- The page loop of `stitch_all` (lines 46-66): clean each page, apply the
transition against the previous page's last line (skipped for the first
page, where `previous_last_line` is still `None`), and remember the new
last line. -/
def stitchFold (prevLast : Option String) : List (Nat × String) → List String
  | [] => []
  | (_, c) :: rest =>
    let c1 := cleanPageContent c
    let c2 := match prevLast with
      | Option.none => c1
      | some pl => handlePageTransition pl c1
    c2 :: stitchFold (some (lastLineOf c2)) rest

/-- Scanner for `re.sub(r'\n(#{1,6}\s+)', r'\n\n\1', s)` (line 159): at each
newline whose maximal following hash run has length 1..6 and is followed by
whitespace, an extra newline is inserted; the greedy `\s+` run is emitted
unchanged and scanning resumes after it. -/
def headerFixF : Nat → List Char → List Char
  | 0, l => l
  | _ + 1, [] => []
  | fuel + 1, c :: rest =>
    if c = '\n' then
      let hs := rest.takeWhile (fun x => x == '#')
      let after := rest.drop hs.length
      let nextWs : Bool := match after with
        | w :: _ => isPyWs w
        | [] => false
      if 1 ≤ hs.length ∧ hs.length ≤ 6 ∧ nextWs then
        let ws := after.takeWhile isPyWs
        '\n' :: '\n' :: (hs ++ ws ++ headerFixF fuel (after.drop ws.length))
      else
        c :: headerFixF fuel rest
    else
      c :: headerFixF fuel rest

/-- Bullet markers of `re.sub(r'\n([•\-\*])\s+', r'\n\1 ', s)` (line 162). -/
def isBulletChar (c : Char) : Bool := c == '•' || c == '-' || c == '*'

/-- Scanner for `re.sub(r'\n([•\-\*])\s+', r'\n\1 ', s)`: the marker is kept
(captured group `\1`) and the greedy whitespace run after it is replaced by
a single space. -/
def bulletFixF : Nat → List Char → List Char
  | 0, l => l
  | _ + 1, [] => []
  | fuel + 1, c :: rest =>
    if c = '\n' then
      match rest with
      | m :: rest2 =>
        let nextWs : Bool := match rest2 with
          | w :: _ => isPyWs w
          | [] => false
        if isBulletChar m ∧ nextWs then
          '\n' :: m :: ' ' :: bulletFixF fuel (rest2.dropWhile isPyWs)
        else
          '\n' :: bulletFixF fuel (m :: rest2)
      | [] => ['\n']
    else
      c :: bulletFixF fuel rest

/-- Suffix strictly after the last newline of the list, or `none` when the
list has no newline.  Used to model the greedy backtracking of the final
`\s*\n` of the lone-page-number pattern. -/
def afterLastNL : List Char → Option (List Char)
  | [] => Option.none
  | c :: rest =>
    match afterLastNL rest with
    | some s => some s
    | Option.none => if c = '\n' then some rest else Option.none

/-- Scanner for `re.sub(r'\n\s*\d+\s*\n', '\n', s)` (line 165): a match
needs a newline, a maximal whitespace run, a maximal digit run, then a
whitespace run containing a newline; the match extends to the last newline
of that run (greedy `\s*` backtracking) and is replaced by one newline;
scanning resumes right after that newline, and none of the rescanned
whitespace can begin a new match. -/
def loneNumFixF : Nat → List Char → List Char
  | 0, l => l
  | _ + 1, [] => []
  | fuel + 1, c :: rest =>
    if c = '\n' then
      let ws1 := rest.takeWhile isPyWs
      let afterWs := rest.drop ws1.length
      let ds := afterWs.takeWhile (fun d => d.isDigit)
      if 1 ≤ ds.length then
        let afterD := afterWs.drop ds.length
        let ws2 := afterD.takeWhile isPyWs
        match afterLastNL ws2 with
        | some tailWs => '\n' :: (tailWs ++ loneNumFixF fuel (afterD.drop ws2.length))
        | Option.none => '\n' :: loneNumFixF fuel rest
      else
        '\n' :: loneNumFixF fuel rest
    else
      c :: loneNumFixF fuel rest

/-- `MarkdownStitcher._final_cleanup` (lines 153-170): collapse 4+ newlines
to three, insert a blank line before headings, normalize bullet spacing,
drop lone page numbers, trim. -/
def finalCleanup (s : String) : String :=
  let l1 := collapseNLAux 4 ['\n', '\n', '\n'] 0 s.data
  let l2 := headerFixF (l1.length + 1) l1
  let l3 := bulletFixF (l2.length + 1) l2
  let l4 := loneNumFixF (l3.length + 1) l3
  pyStrip ⟨l4⟩

/-- `MarkdownStitcher.stitch_all` (lines 30-75): sort, clean, merge page
transitions, join with a blank line, final cleanup; an empty page list
returns the empty string without cleanup. -/
def stitchAll (pages : List (Nat × String)) : String :=
  match pages with
  | [] => ""
  | _ => finalCleanup (joinWith ("\n\n") (stitchFold Option.none (sortPages pages)))

/-! ## BookProcessor (src/book_processor.py) -/

/-- `Path(pdf_path).name`: the component after the last slash. -/
def basenameOf (p : String) : String :=
  ⟨((splitChAux '/' [] p.data).getLast?).getD p.data⟩

/-- Index of the last occurrence of `c` in the list, if any. -/
def lastIdxOf (c : Char) : List Char → Option Nat
  | [] => Option.none
  | a :: rest =>
    match lastIdxOf c rest with
    | some i => some (i + 1)
    | Option.none => if a = c then some 0 else Option.none

/-- `Path(pdf_path).stem`: the final path component with its last suffix
removed; a suffix exists only when the last dot is neither the first nor
the last character of the name (pathlib semantics). -/
def pathStem (p : String) : String :=
  let name := basenameOf p
  match lastIdxOf '.' name.data with
  | some i => if 0 < i ∧ i < name.length - 1 then ⟨name.data.take i⟩ else name
  | Option.none => name

/-- `BookProcessor._get_cache_file` (lines 185-188): the cache file name
derived from the PDF path (the fixed cache directory prefix is omitted as
it is common to every key). -/
def cacheFileName (p : String) : String := pathStem p ++ ("_cache.json")

/-- The in-memory cache `processed_pages`: a JSON-object-like association
list from string page keys to page results, in insertion order (Python
dicts preserve insertion order, and the JSON file mirrors it). -/
abbrev Cache := List (String × PageResult)

/-- Dict lookup `processed_pages[str(page_num)]` / `str(page_num) in ...`. -/
def cacheLookup (c : Cache) (k : String) : Option PageResult :=
  match c with
  | [] => Option.none
  | (k', v) :: rest => if k' = k then some v else cacheLookup rest k

/-- Dict assignment `processed_pages[str(page_num)] = result`: update in
place when the key exists, append otherwise. -/
def cacheSet (c : Cache) (k : String) (v : PageResult) : Cache :=
  match c with
  | [] => [(k, v)]
  | (k', v') :: rest => if k' = k then (k, v) :: rest else (k', v') :: cacheSet rest k v

/-- Which ContextManager operation the orchestrator invoked for a page:
`set_incomplete_text`, `clear_context`, or neither (the failure path, which
hits `continue` before any context update). -/
inductive CtxOp
  | set
  | clear
  | skip
deriving DecidableEq

/-- Python truthiness of `result['incomplete_text']` (a string or `None`):
false for `None` and for the empty string. -/
def truthyOpt : Option String → Bool
  | Option.none => false
  | some s => !(s = "")

/-- The observable state of one `process_book` run: the cache dict, the
stitcher's page list, the ContextManager state (current fragment and
history), the stats counters, and instrumentation counting remote
extraction calls (`_process_single_page` invocations) and cache writes
(`_save_cache` invocations). -/
structure RunState where
  cache : Cache
  stitch : List (Nat × String)
  context : Option String
  history : List (Nat × String)
  processed : Nat
  errors : Nat
  remoteCalls : Nat
  saves : Nat
deriving DecidableEq

/-- Lines 117-133 of src/book_processor.py: the shared downstream path for
a page result (cached or fresh): `add_page`, then `set_incomplete_text`
(which strips the fragment and appends to history) when
`result['ends_incomplete'] and result['incomplete_text']`, else
`clear_context`; finally `stats['processed'] += 1`.  Also returns which
context operation ran. -/
def consumePage (p : Nat) (r : PageResult) (st : RunState) : RunState × CtxOp :=
  let st1 := { st with stitch := st.stitch ++ [(p, r.markdown)] }
  let frag := pyStrip ((r.incomplete_text).getD (""))
  if r.ends_incomplete && truthyOpt r.incomplete_text then
    ({ st1 with context := some frag,
                history := st1.history ++ [(p, frag)],
                processed := st1.processed + 1 }, CtxOp.set)
  else
    ({ st1 with context := Option.none,
                processed := st1.processed + 1 }, CtxOp.clear)

/-- One iteration of the page loop (lines 96-133 of src/book_processor.py)
for page `p`, against an extraction oracle `E` modelling
`_process_single_page` (`none` = failure after retries).  Cache hit: use
the cached result, no remote call, no save.  Cache miss: call `E` with the
current context; on success store to cache, save, and consume; on failure
increment the error counter and skip the page (`continue`). -/
def stepO (E : Nat → Option String → Option PageResult) (st : RunState) (p : Nat) :
    RunState × CtxOp :=
  match cacheLookup st.cache (Nat.repr p) with
  | some r => consumePage p r st
  | Option.none =>
    match E p st.context with
    | some r =>
      consumePage p r
        { st with remoteCalls := st.remoteCalls + 1,
                  cache := cacheSet st.cache (Nat.repr p) r,
                  saves := st.saves + 1 }
    | Option.none =>
      ({ st with remoteCalls := st.remoteCalls + 1,
                 errors := st.errors + 1 }, CtxOp.skip)

/-- The page-loop step, state part only. -/
def step (E : Nat → Option String → Option PageResult) (st : RunState) (p : Nat) :
    RunState :=
  (stepO E st p).1

/-- The full page loop over a page sequence. -/
def runPages (E : Nat → Option String → Option PageResult) (st : RunState)
    (ps : List Nat) : RunState :=
  ps.foldl (step E) st

/-- The state at the start of a run whose loaded cache is `c`: empty
stitcher, no context, zero counters (lines 80-88 of src/book_processor.py;
`processed_pages` is the loaded cache when resuming, `{}` otherwise). -/
def initState (c : Cache) : RunState :=
  { cache := c, stitch := [], context := Option.none, history := [],
    processed := 0, errors := 0, remoteCalls := 0, saves := 0 }

/-- `process_book` up to the end of the page loop, starting from a loaded
cache `c` and processing the page numbers `ps` in order. -/
def processBook (E : Nat → Option String → Option PageResult) (c : Cache)
    (ps : List Nat) : RunState :=
  runPages E (initState c) ps

/-- The final markdown document produced after the loop
(`markdown_stitcher.stitch_all()`). -/
def finalDoc (st : RunState) : String := stitchAll st.stitch

/-- Agreement of two run states on everything downstream of the page loop:
the stitcher feed, the ContextManager state, and the processed/error
counters — all fields except the cache and the call/save instrumentation. -/
def Agrees (a b : RunState) : Prop :=
  a.stitch = b.stitch ∧ a.context = b.context ∧ a.history = b.history ∧
  a.processed = b.processed ∧ a.errors = b.errors

/-! ## Helper lemmas -/

/-- Strings with equal character data are equal. -/
theorem string_data_ext {s t : String} (h : s.data = t.data) : s = t := by
  cases s
  cases t
  exact congrArg String.mk h

/-- The context operation reported by `consumePage` depends only on the
result record. -/
theorem consumePage_snd (p : Nat) (r : PageResult) (st : RunState) :
    (consumePage p r st).2 =
      (if r.ends_incomplete && truthyOpt r.incomplete_text then CtxOp.set else CtxOp.clear) := by
  unfold consumePage
  split <;> rfl

/-- `consumePage` does not touch the cache. -/
theorem consumePage_fst_cache (p : Nat) (r : PageResult) (st : RunState) :
    ((consumePage p r st).1).cache = st.cache := by
  unfold consumePage
  split <;> rfl

/-- `consumePage` does not perform remote calls. -/
theorem consumePage_fst_remoteCalls (p : Nat) (r : PageResult) (st : RunState) :
    ((consumePage p r st).1).remoteCalls = st.remoteCalls := by
  unfold consumePage
  split <;> rfl

/-- `consumePage` does not write the cache file. -/
theorem consumePage_fst_saves (p : Nat) (r : PageResult) (st : RunState) :
    ((consumePage p r st).1).saves = st.saves := by
  unfold consumePage
  split <;> rfl

/-- `consumePage` leaves the error counter unchanged. -/
theorem consumePage_fst_errors (p : Nat) (r : PageResult) (st : RunState) :
    ((consumePage p r st).1).errors = st.errors := by
  unfold consumePage
  split <;> rfl

/-- `consumePage` increments the processed counter. -/
theorem consumePage_fst_processed (p : Nat) (r : PageResult) (st : RunState) :
    ((consumePage p r st).1).processed = st.processed + 1 := by
  unfold consumePage
  split <;> rfl

/-- `consumePage` appends exactly one entry to the stitcher feed. -/
theorem consumePage_fst_stitch (p : Nat) (r : PageResult) (st : RunState) :
    ((consumePage p r st).1).stitch = st.stitch ++ [(p, r.markdown)] := by
  unfold consumePage
  split <;> rfl

/-- The downstream page consumption acts identically on states that agree
on the downstream-observable fields. -/
theorem consumePage_agrees (p : Nat) (r : PageResult) {a b : RunState}
    (h : Agrees a b) : Agrees (consumePage p r a).1 (consumePage p r b).1 := by
  obtain ⟨h1, h2, h3, h4, h5⟩ := h
  by_cases hc : (r.ends_incomplete && truthyOpt r.incomplete_text) = true <;>
    simp [consumePage, hc, Agrees, h1, h2, h3, h4, h5]

/-- Cache-hit form of the page step. -/
theorem stepO_hit (E : Nat → Option String → Option PageResult)
    (st : RunState) (p : Nat) (r : PageResult)
    (hhit : cacheLookup st.cache (Nat.repr p) = some r) :
    stepO E st p = consumePage p r st := by
  simp [stepO, hhit]

/-- Fresh-success form of the page step. -/
theorem stepO_fresh (E : Nat → Option String → Option PageResult)
    (st : RunState) (p : Nat) (r : PageResult)
    (hmiss : cacheLookup st.cache (Nat.repr p) = Option.none)
    (hr : E p st.context = some r) :
    stepO E st p = consumePage p r
      { st with remoteCalls := st.remoteCalls + 1,
                cache := cacheSet st.cache (Nat.repr p) r,
                saves := st.saves + 1 } := by
  simp [stepO, hmiss, hr]

/-- Failure form of the page step: error counted, page skipped. -/
theorem stepO_fail (E : Nat → Option String → Option PageResult)
    (st : RunState) (p : Nat)
    (hmiss : cacheLookup st.cache (Nat.repr p) = Option.none)
    (hn : E p st.context = Option.none) :
    stepO E st p =
      ({ st with remoteCalls := st.remoteCalls + 1,
                 errors := st.errors + 1 }, CtxOp.skip) := by
  simp [stepO, hmiss, hn]

/-- Looking up the key just written. -/
theorem cacheLookup_cacheSet_self (c : Cache) (k : String) (v : PageResult) :
    cacheLookup (cacheSet c k v) k = some v := by
  induction c with
  | nil => simp [cacheSet, cacheLookup]
  | cons a rest ih =>
    by_cases h : a.1 = k
    · simp [cacheSet, cacheLookup, h]
    · simp [cacheSet, cacheLookup, h, ih]

/-- Writing one key does not affect lookups of other keys. -/
theorem cacheLookup_cacheSet_ne (c : Cache) {k k' : String}
    (h : k' ≠ k) (v : PageResult) :
    cacheLookup (cacheSet c k v) k' = cacheLookup c k' := by
  have h2 : k ≠ k' := Ne.symm h
  induction c with
  | nil => simp [cacheSet, cacheLookup, h2]
  | cons a rest ih =>
    by_cases ha : a.1 = k
    · simp [cacheSet, cacheLookup, ha, h2]
    · simp [cacheSet, cacheLookup, ha, ih]

/-- Writing a fresh key appends one entry. -/
theorem cacheSet_length_fresh (c : Cache) (k : String) (v : PageResult)
    (h : cacheLookup c k = Option.none) :
    (cacheSet c k v).length = c.length + 1 := by
  induction c with
  | nil => rfl
  | cons a rest ih =>
    by_cases ha : a.1 = k
    · simp [cacheLookup, ha] at h
    · simp only [cacheLookup, ha, if_false] at h
      simp [cacheSet, ha, ih h]

/-- A step never removes or overwrites an existing cache entry: the source
only assigns `processed_pages[str(page_num)]` after a failed lookup of
that same key. -/
theorem step_preserves_lookup (E : Nat → Option String → Option PageResult)
    (st : RunState) (p : Nat) {k : String} {v : PageResult}
    (h : cacheLookup st.cache k = some v) :
    cacheLookup (step E st p).cache k = some v := by
  unfold step
  cases hr : cacheLookup st.cache (Nat.repr p) with
  | some r => rw [stepO_hit E st p r hr, consumePage_fst_cache]; exact h
  | none =>
    cases hE : E p st.context with
    | some r =>
      rw [stepO_fresh E st p r hr hE, consumePage_fst_cache]
      have hk : k ≠ Nat.repr p := by
        intro he
        rw [he, hr] at h
        exact Option.noConfusion h
      simp only
      rw [cacheLookup_cacheSet_ne st.cache hk r]
      exact h
    | none => rw [stepO_fail E st p hr hE]; exact h

/-- A whole run never removes or overwrites an existing cache entry. -/
theorem runPages_preserves_lookup (E : Nat → Option String → Option PageResult)
    (ps : List Nat) :
    ∀ (st : RunState) {k : String} {v : PageResult},
    cacheLookup st.cache k = some v →
    cacheLookup (runPages E st ps).cache k = some v := by
  induction ps with
  | nil => intro st k v h; exact h
  | cons p rest ih =>
    intro st k v h
    exact ih (step E st p) (step_preserves_lookup E st p h)

/-! ## Claims -/

/-- Claim C2, counterexample: on the raw response `"{EOL}"` the parser sets
`ends_incomplete` to true while `incomplete_text` stays `None`, so
`ends_incomplete = true` does not imply a non-empty fragment. -/
theorem c2_counterexample :
    (parseResponse eolTok).ends_incomplete = true ∧
    (parseResponse eolTok).incomplete_text = Option.none := by
  decide

/-- Claim C2, amended: if the raw response contains the `{EOL}` sentinel and
an `{INCOMPLETE:` marker followed by a closing brace whose trimmed interior
is non-empty, then the parsed result has `ends_incomplete = true` and that
non-empty trimmed interior as its fragment; without such a marker the
fragment may be `None` or empty. -/
theorem c2_amended (t s : String)
    (hEOL : pyContains t eolTok = true)
    (hInc : pyContains t incTok = true)
    (hBody : incBody t = some s)
    (hne : s ≠ "") :
    (parseResponse t).ends_incomplete = true ∧
    (parseResponse t).incomplete_text = some s ∧ s ≠ "" := by
  refine ⟨?_, ?_, hne⟩ <;> simp [parseResponse, hEOL, hInc, hBody]

/-- Claim C2, witness for the amended statement at a concrete response. -/
theorem c2_amended_witness :
    (parseResponse ("\x7bEOL\x7d \x7bINCOMPLETE: abc\x7d")).ends_incomplete = true ∧
    (parseResponse ("\x7bEOL\x7d \x7bINCOMPLETE: abc\x7d")).incomplete_text = some ("abc") ∧
    ("abc" : String) ≠ "" :=
  c2_amended ("\x7bEOL\x7d \x7bINCOMPLETE: abc\x7d") ("abc")
    (by decide) (by decide) (by decide) (by decide)

/-- Claim C6: the code evaluated at the spec's own examples.  The second
example agrees with the spec, but `"...the quick brown break-"` returns
`(false, none)` instead of the documented `(true, "break-")`: the final
token ends in a hyphen, and `last_word[-1].isalpha()` rejects it even
though the code's inline comment names `"break-"` as the intended case. -/
theorem c6_eval :
    detectIncompleteText ("...the quick brown break-") = (false, Option.none) ∧
    detectIncompleteText ("...end of sentence.") = (false, Option.none) ∧
    ((false, Option.none) : Bool × Option String) ≠ (true, some ("break-")) := by
  decide

/-- Claim C7, counterexample: with a `|markdown`-tagged opener (spelled with
backticks in the source) but no closing fence, the parsed markdown is the
empty string, not the trimmed raw response. -/
theorem c7_counterexample :
    (parseResponse ("```markdown\nhello")).markdown = "" ∧
    pyStrip ("```markdown\nhello") = "```markdown\nhello" ∧
    ("```markdown\nhello" : String) ≠ "" := by
  decide

/-- Claim C7, amended: the whole-response fallback (trimmed raw response
with the `{EOL}` token stripped) applies only when no fenced-markdown
opener occurs at all; when an opener occurs without a closing fence after
it, the parsed markdown is the empty string. -/
theorem c7_amended (t : String) :
    (pyContains t fenceTok = false →
      (parseResponse t).markdown = pyStrip (pyReplace (pyStrip t) eolTok (""))) ∧
    (pyContains t fenceTok = true →
      pyFindFrom t closeTok ((pyFindFrom t fenceTok 0).getD 0 + fenceTok.length) =
        Option.none →
      (parseResponse t).markdown = "") := by
  constructor
  · intro h
    simp [parseResponse, h]
  · intro h hclose
    have hempty : pyStrip (pyReplace ("") eolTok ("")) = "" := by decide
    simp [parseResponse, h, hclose, hempty]

/-- Claim C7, witness for the amended statement: a fence-free raw response
takes the trimmed-whole-response fallback. -/
theorem c7_amended_witness :
    (parseResponse ("  raw \x7bEOL\x7d text  ")).markdown =
      pyStrip (pyReplace (pyStrip ("  raw \x7bEOL\x7d text  ")) eolTok ("")) :=
  (c7_amended ("  raw \x7bEOL\x7d text  ")).1 (by decide)

/-- Claim C8, counterexample: the bullet pass keeps the original `•` marker
(the regex replacement reuses the captured marker), so the line does not
begin with a dash as the claim states; only the spacing is normalized. -/
theorem c8_counterexample :
    finalCleanup ("text\n•  item") = "text\n• item" ∧
    ("text\n• item" : String) ≠ "text\n- item" := by
  decide

/-- Claim C8, amended: the bullet pass of `_final_cleanup` (the scanner
for `re.sub` of newline, marker, whitespace-run, used inside
`finalCleanup` and hence `stitchAll`) keeps the original marker at every
match site — a newline, then a marker `•`, `-` or `*`, then a non-empty
whitespace run — and replaces the entire greedy whitespace run after the
marker by exactly one space.  It never converts a marker to a dash, and
it rewrites nothing at a bullet without a preceding newline (for example
on the document's first line) or without following whitespace. -/
theorem c8_amended (fuel : Nat) (m : Char) (hm : isBulletChar m = true) :
    (∀ w rest, w ≠ [] → (∀ c ∈ w, isPyWs c = true) →
      bulletFixF (fuel + 1) ('\n' :: m :: (w ++ rest)) =
        '\n' :: m :: ' ' :: bulletFixF fuel ((w ++ rest).dropWhile isPyWs)) ∧
    (∀ l, bulletFixF (fuel + 1) (m :: l) = m :: bulletFixF fuel l) ∧
    (∀ c rest, isPyWs c = false →
      bulletFixF (fuel + 1) ('\n' :: m :: c :: rest) =
        '\n' :: bulletFixF fuel (m :: c :: rest)) := by
  have hmn : ¬m = '\n' := by
    intro h
    rw [h] at hm
    exact absurd hm (by decide)
  refine ⟨?_, ?_, ?_⟩
  · intro w rest hw hws
    obtain ⟨c0, w0, rfl⟩ : ∃ c0 w0, w = c0 :: w0 := by
      cases w with
      | nil => exact absurd rfl hw
      | cons a b => exact ⟨a, b, rfl⟩
    have hc0 : isPyWs c0 = true := hws c0 (List.mem_cons_self c0 w0)
    simp [bulletFixF, hm, hc0]
  · intro l
    simp [bulletFixF, hmn]
  · intro c rest hc
    simp [bulletFixF, hm, hc]

/-- Claim C8, witness for the amended statement: a `•` site with a
two-space run is normalized to marker plus one space, a leading-line `•`
is copied untouched, and a `*` with no following whitespace is not
rewritten. -/
theorem c8_amended_witness :
    bulletFixF 10 ('\n' :: '•' :: ([' ', ' '] ++ ['i', 't', 'e', 'm'])) =
      '\n' :: '•' :: ' ' ::
        bulletFixF 9 (([' ', ' '] ++ ['i', 't', 'e', 'm']).dropWhile isPyWs) ∧
    bulletFixF 10 ('•' :: [' ', ' ', 'i']) = '•' :: bulletFixF 9 [' ', ' ', 'i'] ∧
    bulletFixF 10 ('\n' :: '*' :: 'x' :: []) =
      '\n' :: bulletFixF 9 ('*' :: 'x' :: []) := by
  have h1 := (c8_amended 9 '•' (by decide)).1 [' ', ' '] ['i', 't', 'e', 'm']
    (by decide) (by decide)
  have h2 := (c8_amended 9 '•' (by decide)).2.1 [' ', ' ', 'i']
  have h3 := (c8_amended 9 '*' (by decide)).2.2 'x' [] (by decide)
  exact ⟨h1, h2, h3⟩

/-- Claim C9, counterexample: two distinct document paths with the same
file stem produce the same cache key. -/
theorem c9_counterexample :
    cacheFileName ("a/book.pdf") = cacheFileName ("b/book.pdf") ∧
    ("a/book.pdf" : String) ≠ "b/book.pdf" := by
  decide

/-- Claim C9, amended: the cache key is a deterministic function of the
document path that collides exactly when the file stems coincide; the same
path always yields the same key, but distinct paths with equal stems (for
example the same file name in different directories) share a key. -/
theorem c9_amended (p q : String) :
    cacheFileName p = cacheFileName q ↔ pathStem p = pathStem q := by
  constructor
  · intro h
    have hd := congrArg String.data h
    simp only [cacheFileName, String.data_append] at hd
    exact string_data_ext (List.append_cancel_right hd)
  · intro h
    unfold cacheFileName
    rw [h]

/-- Claim C3, counterexample: on a page whose extraction fails, the
orchestrator invokes neither `set_incomplete_text` nor `clear_context`
(the loop hits `continue` first), refuting "exactly one of the two runs
for every page". -/
theorem c3_counterexample :
    (stepO (fun _ _ => Option.none) (initState []) 1).2 = CtxOp.skip ∧
    CtxOp.skip ≠ CtxOp.set ∧ CtxOp.skip ≠ CtxOp.clear := by
  decide

/-- Claim C3, amended: for every page whose step succeeds (cache hit or
fresh extraction success) exactly one context operation runs —
`set_incomplete_text` when the result has `ends_incomplete` true and a
truthy (non-`None`, non-empty) fragment, `clear_context` otherwise; for a
page whose extraction fails, neither operation runs. -/
theorem c3_amended (E : Nat → Option String → Option PageResult)
    (st : RunState) (p : Nat) :
    (∀ r, cacheLookup st.cache (Nat.repr p) = some r →
      (stepO E st p).2 =
        (if r.ends_incomplete && truthyOpt r.incomplete_text then CtxOp.set
         else CtxOp.clear)) ∧
    (cacheLookup st.cache (Nat.repr p) = Option.none →
      ∀ r, E p st.context = some r →
      (stepO E st p).2 =
        (if r.ends_incomplete && truthyOpt r.incomplete_text then CtxOp.set
         else CtxOp.clear)) ∧
    (cacheLookup st.cache (Nat.repr p) = Option.none →
      E p st.context = Option.none →
      (stepO E st p).2 = CtxOp.skip) := by
  refine ⟨?_, ?_, ?_⟩
  · intro r hr
    simp [stepO, hr, consumePage_snd]
  · intro hmiss r hr
    simp [stepO, hmiss, hr, consumePage_snd]
  · intro hmiss hr
    simp [stepO, hmiss, hr]

/-- Claim C3, witness for the amended statement: a fresh successful page
with an incomplete ending runs exactly the `set` operation. -/
theorem c3_amended_witness :
    (stepO (fun _ _ => some (PageResult.mk ("md") true (some (" jum "))))
      (initState []) 3).2 = CtxOp.set := by
  have h :=
    (c3_amended (fun _ _ => some (PageResult.mk ("md") true (some (" jum "))))
      (initState []) 3).2.1 rfl (PageResult.mk ("md") true (some (" jum "))) rfl
  simpa using h

/-- Claim C5: when the previous page's cleaned content ends in the line
`"## Chapter 3"` and the current page's cleaned content starts with the
(stripped) line `"## Chapter 3"`, `stitch_all` of the two pages drops the
current page's duplicate first line: the output is the final cleanup of
the previous cleaned page, the blank-line join, and the current cleaned
page without its first line — so the heading occurs once at the join. -/
theorem c5_header_dedup (A B : String)
    (h1 : lastLineOf (cleanPageContent A) = "## Chapter 3")
    (h2 : firstLineOf (cleanPageContent B) = "## Chapter 3") :
    stitchAll [(1, A), (2, B)] =
      finalCleanup (cleanPageContent A ++ "\n\n" ++
        joinWith ("\n") (splitNL (cleanPageContent B)).tail) := by
  have hBne : cleanPageContent B ≠ "" := by
    intro hB
    rw [hB] at h2
    exact absurd h2 (by decide)
  have hTrans : handlePageTransition ("## Chapter 3") (cleanPageContent B) =
      joinWith ("\n") (splitNL (cleanPageContent B)).tail := by
    unfold handlePageTransition
    rw [if_neg (by simp [hBne])]
    rw [h2]
    rw [if_pos (by decide)]
  have hsort : sortPages [(1, A), (2, B)] = [(1, A), (2, B)] := by
    simp [sortPages, insertPage]
  show finalCleanup (joinWith ("\n\n")
      (stitchFold Option.none (sortPages [(1, A), (2, B)]))) = _
  rw [hsort]
  show finalCleanup (joinWith ("\n\n")
      (cleanPageContent A ::
        stitchFold (some (lastLineOf (cleanPageContent A))) [(2, B)])) = _
  rw [h1]
  show finalCleanup (joinWith ("\n\n")
      [cleanPageContent A,
        handlePageTransition ("## Chapter 3") (cleanPageContent B)]) = _
  rw [hTrans]
  rfl

/-- Claim C5, witness: a concrete two-page book whose boundary lines are
both `"## Chapter 3"`; the duplicate is dropped and the heading occurs
exactly once in the stitched output. -/
theorem c5_header_dedup_witness :
    stitchAll [(1, "Intro text.\n\n## Chapter 3"),
               (2, "## Chapter 3\nBody text here.")] =
      finalCleanup (cleanPageContent ("Intro text.\n\n## Chapter 3") ++ "\n\n" ++
        joinWith ("\n")
          (splitNL (cleanPageContent ("## Chapter 3\nBody text here."))).tail) ∧
    stitchAll [(1, "Intro text.\n\n## Chapter 3"),
               (2, "## Chapter 3\nBody text here.")] =
      "Intro text.\n\n\n## Chapter 3\n\nBody text here." ∧
    countSub (stitchAll [(1, "Intro text.\n\n## Chapter 3"),
               (2, "## Chapter 3\nBody text here.")]) ("## Chapter 3") = 1 :=
  ⟨c5_header_dedup ("Intro text.\n\n## Chapter 3") ("## Chapter 3\nBody text here.")
      (by decide) (by decide),
   by decide, by decide⟩

/-- Claim C10: a cache hit drives exactly the same downstream step as a
fresh successful extraction of the same result — two states that agree on
the downstream-observable fields still agree after the step, and the same
context operation runs — while the cached step skips only the remote call
and the cache write: its cache, remote-call count and save count are
untouched. -/
theorem c10_cached_matches_fresh (E : Nat → Option String → Option PageResult)
    (st st' : RunState) (p : Nat) (r : PageResult)
    (hAg : Agrees st st')
    (hHit : cacheLookup st.cache (Nat.repr p) = some r)
    (hMiss : cacheLookup st'.cache (Nat.repr p) = Option.none)
    (hFresh : E p st'.context = some r) :
    Agrees (step E st p) (step E st' p) ∧
    (stepO E st p).2 = (stepO E st' p).2 ∧
    (step E st p).cache = st.cache ∧
    (step E st p).remoteCalls = st.remoteCalls ∧
    (step E st p).saves = st.saves := by
  have hs : stepO E st p = consumePage p r st := stepO_hit E st p r hHit
  have hs' : stepO E st' p = consumePage p r
      { st' with remoteCalls := st'.remoteCalls + 1,
                 cache := cacheSet st'.cache (Nat.repr p) r,
                 saves := st'.saves + 1 } := stepO_fresh E st' p r hMiss hFresh
  refine ⟨?_, ?_, ?_, ?_, ?_⟩
  · show Agrees (stepO E st p).1 (stepO E st' p).1
    rw [hs, hs']
    exact consumePage_agrees p r hAg
  · rw [hs, hs', consumePage_snd, consumePage_snd]
  · show (stepO E st p).1.cache = st.cache
    rw [hs, consumePage_fst_cache]
  · show (stepO E st p).1.remoteCalls = st.remoteCalls
    rw [hs, consumePage_fst_remoteCalls]
  · show (stepO E st p).1.saves = st.saves
    rw [hs, consumePage_fst_saves]

/-- Claim C10, witness: a state with page 3 cached versus a fresh state
whose oracle returns the same result. -/
theorem c10_cached_matches_fresh_witness :
    Agrees
      (step (fun _ _ => some (PageResult.mk ("m") false Option.none))
        { initState [] with
            cache := [(Nat.repr 3, PageResult.mk ("m") false Option.none)] } 3)
      (step (fun _ _ => some (PageResult.mk ("m") false Option.none))
        (initState []) 3) ∧
    (step (fun _ _ => some (PageResult.mk ("m") false Option.none))
        { initState [] with
            cache := [(Nat.repr 3, PageResult.mk ("m") false Option.none)] } 3).cache =
      [(Nat.repr 3, PageResult.mk ("m") false Option.none)] := by
  have h := c10_cached_matches_fresh
    (fun _ _ => some (PageResult.mk ("m") false Option.none))
    { initState [] with
        cache := [(Nat.repr 3, PageResult.mk ("m") false Option.none)] }
    (initState []) 3 (PageResult.mk ("m") false Option.none)
    ⟨rfl, rfl, rfl, rfl, rfl⟩ (by decide) rfl rfl
  exact ⟨h.1, h.2.2.1⟩

/-- Behavior of the page loop from a state whose cache holds none of the
pages, when page 5 always fails extraction and every other page always
succeeds: failures only count errors, successes are cached, counted and
fed to the stitcher in order. -/
theorem runPages_fresh_spec (E : Nat → Option String → Option PageResult)
    (h5 : ∀ c, E 5 c = Option.none)
    (hok : ∀ p c, p ≠ 5 → (E p c).isSome) :
    ∀ (ps : List Nat) (st : RunState),
    (∀ p ∈ ps, cacheLookup st.cache (Nat.repr p) = Option.none) →
    (ps.map Nat.repr).Nodup →
    (runPages E st ps).errors = st.errors + (ps.filter (fun p => p == 5)).length ∧
    (runPages E st ps).processed =
      st.processed + (ps.filter (fun p => p != 5)).length ∧
    (runPages E st ps).cache.length =
      st.cache.length + (ps.filter (fun p => p != 5)).length ∧
    (∀ k, cacheLookup st.cache k = Option.none →
      k ∉ (ps.filter (fun p => p != 5)).map Nat.repr →
      cacheLookup (runPages E st ps).cache k = Option.none) ∧
    (runPages E st ps).stitch.map Prod.fst =
      st.stitch.map Prod.fst ++ ps.filter (fun p => p != 5) := by
  intro ps
  induction ps with
  | nil =>
    intro st _ _
    exact ⟨rfl, rfl, rfl, fun _ h _ => h, by simp [runPages]⟩
  | cons p rest ih =>
    intro st hfresh hnodup
    have hmiss : cacheLookup st.cache (Nat.repr p) = Option.none :=
      hfresh p (List.mem_cons_self p rest)
    have hnodup2 : (rest.map Nat.repr).Nodup := (List.nodup_cons.mp hnodup).2
    have hhead : Nat.repr p ∉ rest.map Nat.repr := (List.nodup_cons.mp hnodup).1
    have hrun : runPages E st (p :: rest) = runPages E (step E st p) rest := rfl
    by_cases hp : p = 5
    · subst hp
      have hstep : stepO E st 5 =
          ({ st with remoteCalls := st.remoteCalls + 1,
                     errors := st.errors + 1 }, CtxOp.skip) :=
        stepO_fail E st 5 hmiss (h5 st.context)
      have hst2 : step E st 5 =
          { st with remoteCalls := st.remoteCalls + 1,
                    errors := st.errors + 1 } := by
        rw [step, hstep]
      have hfresh2 : ∀ q ∈ rest,
          cacheLookup (step E st 5).cache (Nat.repr q) = Option.none := by
        intro q hq
        rw [hst2]
        exact hfresh q (List.mem_cons_of_mem 5 hq)
      obtain ⟨ihe, ihp, ihc, ihk, ihs⟩ := ih (step E st 5) hfresh2 hnodup2
      refine ⟨?_, ?_, ?_, ?_, ?_⟩
      · rw [hrun, ihe, hst2]
        simp [List.filter_cons]
        omega
      · rw [hrun, ihp, hst2]
        simp [List.filter_cons]
      · rw [hrun, ihc, hst2]
        simp [List.filter_cons]
      · intro k hk hkn
        rw [hrun]
        refine ihk k ?_ ?_
        · rw [hst2]
          exact hk
        · simpa [List.filter_cons] using hkn
      · rw [hrun, ihs, hst2]
        simp [List.filter_cons]
    · obtain ⟨r, hr⟩ := Option.isSome_iff_exists.mp (hok p st.context hp)
      have hstep : stepO E st p = consumePage p r
          { st with remoteCalls := st.remoteCalls + 1,
                    cache := cacheSet st.cache (Nat.repr p) r,
                    saves := st.saves + 1 } :=
        stepO_fresh E st p r hmiss hr
      have hcache : (step E st p).cache = cacheSet st.cache (Nat.repr p) r := by
        rw [step, hstep, consumePage_fst_cache]
      have herr : (step E st p).errors = st.errors := by
        rw [step, hstep, consumePage_fst_errors]
      have hproc : (step E st p).processed = st.processed + 1 := by
        rw [step, hstep, consumePage_fst_processed]
      have hstitch : (step E st p).stitch = st.stitch ++ [(p, r.markdown)] := by
        rw [step, hstep, consumePage_fst_stitch]
      have hfresh2 : ∀ q ∈ rest,
          cacheLookup (step E st p).cache (Nat.repr q) = Option.none := by
        intro q hq
        rw [hcache]
        have hne : Nat.repr q ≠ Nat.repr p := by
          intro he
          exact hhead (he ▸ List.mem_map_of_mem Nat.repr hq)
        rw [cacheLookup_cacheSet_ne st.cache hne r]
        exact hfresh q (List.mem_cons_of_mem p hq)
      obtain ⟨ihe, ihp, ihc, ihk, ihs⟩ := ih (step E st p) hfresh2 hnodup2
      refine ⟨?_, ?_, ?_, ?_, ?_⟩
      · rw [hrun, ihe, herr]
        simp [List.filter_cons, hp]
      · rw [hrun, ihp, hproc]
        simp [List.filter_cons, hp]
        omega
      · rw [hrun, ihc, hcache,
          cacheSet_length_fresh st.cache (Nat.repr p) r hmiss]
        simp [List.filter_cons, hp]
        omega
      · intro k hk hkn
        rw [hrun]
        simp only [List.filter_cons, hp, if_true, ne_eq, bne_iff_ne,
          not_false_eq_true, List.map_cons, List.mem_cons, not_or] at hkn
        have hkn1 : k ≠ Nat.repr p := by
          intro he
          exact hkn.1 he
        refine ihk k ?_ ?_
        · rw [hcache, cacheLookup_cacheSet_ne st.cache hkn1 r]
          exact hk
        · simpa using hkn.2
      · rw [hrun, ihs, hstitch]
        simp [List.filter_cons, hp]

/-- Claim C4: in a ten-page run from an empty cache in which extraction of
page 5 always fails and every other page always succeeds, the run
completes the other nine pages (`processed = 9`, stitcher fed pages
1-4 and 6-10 in order), reports exactly one error, and the cache ends with
exactly nine entries with page 5 absent. -/
theorem c4_page5_failure (E : Nat → Option String → Option PageResult)
    (h5 : ∀ c, E 5 c = Option.none)
    (hok : ∀ p c, p ≠ 5 → (E p c).isSome) :
    (processBook E [] [1, 2, 3, 4, 5, 6, 7, 8, 9, 10]).errors = 1 ∧
    (processBook E [] [1, 2, 3, 4, 5, 6, 7, 8, 9, 10]).processed = 9 ∧
    (processBook E [] [1, 2, 3, 4, 5, 6, 7, 8, 9, 10]).cache.length = 9 ∧
    cacheLookup (processBook E [] [1, 2, 3, 4, 5, 6, 7, 8, 9, 10]).cache
      (Nat.repr 5) = Option.none ∧
    (processBook E [] [1, 2, 3, 4, 5, 6, 7, 8, 9, 10]).stitch.map Prod.fst =
      [1, 2, 3, 4, 6, 7, 8, 9, 10] := by
  obtain ⟨he, hp, hc, hk, hs⟩ :=
    runPages_fresh_spec E h5 hok [1, 2, 3, 4, 5, 6, 7, 8, 9, 10] (initState [])
      (fun _ _ => rfl) (by decide)
  refine ⟨?_, ?_, ?_, ?_, ?_⟩
  · rw [processBook, he]; rfl
  · rw [processBook, hp]; rfl
  · rw [processBook, hc]; rfl
  · exact hk (Nat.repr 5) rfl (by decide)
  · rw [processBook, hs]; rfl

/-- Claim C4, witness: a concrete oracle failing exactly on page 5. -/
theorem c4_page5_failure_witness :
    (processBook
      (fun p _ => if p = 5 then Option.none
                  else some (PageResult.mk ("pg") false Option.none))
      [] [1, 2, 3, 4, 5, 6, 7, 8, 9, 10]).errors = 1 ∧
    (processBook
      (fun p _ => if p = 5 then Option.none
                  else some (PageResult.mk ("pg") false Option.none))
      [] [1, 2, 3, 4, 5, 6, 7, 8, 9, 10]).processed = 9 ∧
    (processBook
      (fun p _ => if p = 5 then Option.none
                  else some (PageResult.mk ("pg") false Option.none))
      [] [1, 2, 3, 4, 5, 6, 7, 8, 9, 10]).cache.length = 9 ∧
    cacheLookup (processBook
      (fun p _ => if p = 5 then Option.none
                  else some (PageResult.mk ("pg") false Option.none))
      [] [1, 2, 3, 4, 5, 6, 7, 8, 9, 10]).cache (Nat.repr 5) = Option.none ∧
    (processBook
      (fun p _ => if p = 5 then Option.none
                  else some (PageResult.mk ("pg") false Option.none))
      [] [1, 2, 3, 4, 5, 6, 7, 8, 9, 10]).stitch.map Prod.fst =
      [1, 2, 3, 4, 6, 7, 8, 9, 10] :=
  c4_page5_failure
    (fun p _ => if p = 5 then Option.none
                else some (PageResult.mk ("pg") false Option.none))
    (fun _ => by simp)
    (fun p _ hp => by simp [hp])

/-- Simulation lemma behind the resume idempotence claim: if every
extraction call succeeds, then a run from a state `s2` that agrees with
`s1` downstream and whose cache already contains every entry of the final
cache of `s1`'s run stays in lock-step with `s1`'s run downstream and
never touches its own cache, never calls the oracle, and never saves. -/
theorem runPages_sim (E : Nat → Option String → Option PageResult)
    (hE : ∀ p c, (E p c).isSome) :
    ∀ (ps : List Nat) (s1 s2 : RunState),
    Agrees s1 s2 →
    (∀ k v, cacheLookup (runPages E s1 ps).cache k = some v →
      cacheLookup s2.cache k = some v) →
    Agrees (runPages E s1 ps) (runPages E s2 ps) ∧
    (runPages E s2 ps).cache = s2.cache ∧
    (runPages E s2 ps).remoteCalls = s2.remoteCalls ∧
    (runPages E s2 ps).saves = s2.saves := by
  intro ps
  induction ps with
  | nil =>
    intro s1 s2 hAg _
    exact ⟨hAg, rfl, rfl, rfl⟩
  | cons p rest ih =>
    intro s1 s2 hAg hSup
    rcases hr1 : cacheLookup s1.cache (Nat.repr p) with _ | r
    · -- run 1 extracts page p fresh; its result ends up in the final cache
      obtain ⟨r, hr⟩ := Option.isSome_iff_exists.mp (hE p s1.context)
      have hstep1 : stepO E s1 p = consumePage p r
          { s1 with remoteCalls := s1.remoteCalls + 1,
                    cache := cacheSet s1.cache (Nat.repr p) r,
                    saves := s1.saves + 1 } := stepO_fresh E s1 p r hr1 hr
      have hkey : cacheLookup (runPages E s1 (p :: rest)).cache (Nat.repr p) =
          some r := by
        have h0 : cacheLookup (step E s1 p).cache (Nat.repr p) = some r := by
          rw [step, hstep1, consumePage_fst_cache]
          exact cacheLookup_cacheSet_self s1.cache (Nat.repr p) r
        exact runPages_preserves_lookup E rest (step E s1 p) h0
      have hhit2 : cacheLookup s2.cache (Nat.repr p) = some r := hSup _ _ hkey
      have hstep2 : stepO E s2 p = consumePage p r s2 := stepO_hit E s2 p r hhit2
      have hAg1 : Agrees (step E s1 p) (step E s2 p) := by
        rw [step, step, hstep1, hstep2]
        exact consumePage_agrees p r hAg
      have hs2cache : (step E s2 p).cache = s2.cache := by
        rw [step, hstep2, consumePage_fst_cache]
      have hSup2 : ∀ k v,
          cacheLookup (runPages E (step E s1 p) rest).cache k = some v →
          cacheLookup (step E s2 p).cache k = some v := by
        intro k v h
        rw [hs2cache]
        exact hSup k v h
      obtain ⟨iAg, ic, irc, isv⟩ := ih (step E s1 p) (step E s2 p) hAg1 hSup2
      refine ⟨iAg, ?_, ?_, ?_⟩
      · rw [show runPages E s2 (p :: rest) = runPages E (step E s2 p) rest from rfl,
          ic, hs2cache]
      · rw [show runPages E s2 (p :: rest) = runPages E (step E s2 p) rest from rfl,
          irc, step, hstep2, consumePage_fst_remoteCalls]
      · rw [show runPages E s2 (p :: rest) = runPages E (step E s2 p) rest from rfl,
          isv, step, hstep2, consumePage_fst_saves]
    · -- run 1 already holds page p in its cache
      have hstep1 : stepO E s1 p = consumePage p r s1 := stepO_hit E s1 p r hr1
      have hkey : cacheLookup (runPages E s1 (p :: rest)).cache (Nat.repr p) =
          some r := by
        have h0 : cacheLookup (step E s1 p).cache (Nat.repr p) = some r := by
          rw [step, hstep1, consumePage_fst_cache]
          exact hr1
        exact runPages_preserves_lookup E rest (step E s1 p) h0
      have hhit2 : cacheLookup s2.cache (Nat.repr p) = some r := hSup _ _ hkey
      have hstep2 : stepO E s2 p = consumePage p r s2 := stepO_hit E s2 p r hhit2
      have hAg1 : Agrees (step E s1 p) (step E s2 p) := by
        rw [step, step, hstep1, hstep2]
        exact consumePage_agrees p r hAg
      have hs2cache : (step E s2 p).cache = s2.cache := by
        rw [step, hstep2, consumePage_fst_cache]
      have hSup2 : ∀ k v,
          cacheLookup (runPages E (step E s1 p) rest).cache k = some v →
          cacheLookup (step E s2 p).cache k = some v := by
        intro k v h
        rw [hs2cache]
        exact hSup k v h
      obtain ⟨iAg, ic, irc, isv⟩ := ih (step E s1 p) (step E s2 p) hAg1 hSup2
      refine ⟨iAg, ?_, ?_, ?_⟩
      · rw [show runPages E s2 (p :: rest) = runPages E (step E s2 p) rest from rfl,
          ic, hs2cache]
      · rw [show runPages E s2 (p :: rest) = runPages E (step E s2 p) rest from rfl,
          irc, step, hstep2, consumePage_fst_remoteCalls]
      · rw [show runPages E s2 (p :: rest) = runPages E (step E s2 p) rest from rfl,
          isv, step, hstep2, consumePage_fst_saves]

/-- Claim C1: when every extraction call succeeds, a second resumed run of
the same pages starting from the first run's cache leaves the cache
unchanged, performs zero remote extraction calls and zero cache-file
writes, and produces a stitcher feed — hence a final markdown document —
and statistics identical to the first run's. -/
theorem c1_resume_idempotent (E : Nat → Option String → Option PageResult)
    (ps : List Nat) (hE : ∀ p c, (E p c).isSome) :
    (processBook E (processBook E [] ps).cache ps).cache =
      (processBook E [] ps).cache ∧
    (processBook E (processBook E [] ps).cache ps).remoteCalls = 0 ∧
    (processBook E (processBook E [] ps).cache ps).saves = 0 ∧
    finalDoc (processBook E (processBook E [] ps).cache ps) =
      finalDoc (processBook E [] ps) ∧
    (processBook E (processBook E [] ps).cache ps).stitch =
      (processBook E [] ps).stitch ∧
    (processBook E (processBook E [] ps).cache ps).processed =
      (processBook E [] ps).processed ∧
    (processBook E (processBook E [] ps).cache ps).errors =
      (processBook E [] ps).errors ∧
    (processBook E (processBook E [] ps).cache ps).history =
      (processBook E [] ps).history ∧
    (processBook E (processBook E [] ps).cache ps).context =
      (processBook E [] ps).context := by
  obtain ⟨hAg, hc, hrc, hsv⟩ :=
    runPages_sim E hE ps (initState []) (initState (processBook E [] ps).cache)
      ⟨rfl, rfl, rfl, rfl, rfl⟩ (fun _ _ h => h)
  obtain ⟨h1, h2, h3, h4, h5⟩ := hAg
  exact ⟨hc, hrc, hsv, congrArg stitchAll h1.symm, h1.symm, h4.symm, h5.symm,
    h3.symm, h2.symm⟩

/-- Claim C1, witness: a concrete always-succeeding oracle over two pages;
the resumed run keeps the cache, calls nothing, saves nothing, and
reproduces the document. -/
theorem c1_resume_idempotent_witness :
    (processBook (fun _ _ => some (PageResult.mk ("Hello page") false Option.none))
      (processBook (fun _ _ => some (PageResult.mk ("Hello page") false Option.none))
        [] [1, 2]).cache [1, 2]).cache =
      (processBook (fun _ _ => some (PageResult.mk ("Hello page") false Option.none))
        [] [1, 2]).cache ∧
    (processBook (fun _ _ => some (PageResult.mk ("Hello page") false Option.none))
      (processBook (fun _ _ => some (PageResult.mk ("Hello page") false Option.none))
        [] [1, 2]).cache [1, 2]).remoteCalls = 0 ∧
    (processBook (fun _ _ => some (PageResult.mk ("Hello page") false Option.none))
      (processBook (fun _ _ => some (PageResult.mk ("Hello page") false Option.none))
        [] [1, 2]).cache [1, 2]).saves = 0 ∧
    finalDoc (processBook
        (fun _ _ => some (PageResult.mk ("Hello page") false Option.none))
        (processBook (fun _ _ => some (PageResult.mk ("Hello page") false Option.none))
          [] [1, 2]).cache [1, 2]) =
      finalDoc (processBook
        (fun _ _ => some (PageResult.mk ("Hello page") false Option.none))
        [] [1, 2]) := by
  have h := c1_resume_idempotent
    (fun _ _ => some (PageResult.mk ("Hello page") false Option.none))
    [1, 2] (fun _ _ => rfl)
  exact ⟨h.1, h.2.1, h.2.2.1, h.2.2.2.1⟩

end BookOCR
